import Mathlib

/-!
Verification of the evaluation job queue in `db/dataset_eval.py` of the
acousticbrainz-server repository.

The module is a data-access layer over two tables, `dataset_eval_jobs` and
`dataset_snapshot`.  We embed the tables as lists of records inside a state
record, and each Python function as a pure Lean function.  The database's
exceptions become an explicit error type; mutating operations return the
(possibly unchanged) state together with an optional error so that the
"transaction commits nothing on failure" behaviour of the source is explicit.

External collaborators are parameters:
  * `db.dataset.get`       becomes `Env.dataset : String → Dataset`
  * `db.data.count_lowlevel` becomes `Env.count_lowlevel : String → Nat`
`uuid_generate_v4()` and `current_timestamp` become a fresh-id counter and a
clock value carried in the state.
-/

namespace DatasetEval

/-- Job statuses, mirroring the `eval_job_status` enum referenced by the
constants `STATUS_PENDING`, `STATUS_RUNNING`, `STATUS_DONE`, `STATUS_FAILED`. -/
inductive Status where
  | pending
  | running
  | done
  | failed
deriving DecidableEq, Repr

def STATUS_PENDING : String := "pending"

def STATUS_RUNNING : String := "running"

def STATUS_DONE : String := "done"

def STATUS_FAILED : String := "failed"

/-- `FILTER_ARTIST = "artist"`, the only recognised filter type. -/
def FILTER_ARTIST : String := "artist"

/-- Parse a status string into the enum; `some` exactly on the four valid
status strings checked by `set_job_status`. -/
def parseStatus (s : String) : Option Status :=
  if s = STATUS_PENDING then some Status.pending
  else if s = STATUS_RUNNING then some Status.running
  else if s = STATUS_DONE then some Status.done
  else if s = STATUS_FAILED then some Status.failed
  else none

/-- A row of the `dataset_eval_jobs` table. -/
structure Job where
  id : Nat
  dataset_id : String
  status : Status
  status_msg : Option String
  result : Option String
  options : String
  created : Nat
  updated : Nat
deriving DecidableEq, Repr

/-- A row of the `dataset_snapshot` table: `(id, data)`. -/
structure Snapshot where
  id : Nat
  data : String
deriving DecidableEq, Repr

/-- The mutable store: the two tables plus the id generator and the clock. -/
@[ext]
structure QState where
  jobs : List Job
  snaps : List Snapshot
  nextId : Nat
  now : Nat
deriving DecidableEq, Repr

/-- The exceptions the module can raise.  `incompleteSchema` and
`incompleteMissingRecording` both correspond to `IncompleteDatasetException`
(the latter carries the recording named in the message
"Can't find low-level data for recording: %s"). -/
inductive EvalError where
  | jobExists
  | incompleteSchema
  | incompleteMissingRecording (mbid : String)
  | incorrectJobStatus
  | valueErrorNormalize
  | valueErrorFilterType
deriving DecidableEq, Repr

/-- Is the error an `IncompleteDatasetException`? -/
def EvalError.isIncomplete : EvalError → Bool
  | EvalError.incompleteSchema => true
  | EvalError.incompleteMissingRecording _ => true
  | _ => false

/-- A Python value, as far as `_create_job`'s `isinstance(normalize, bool)`
check can distinguish: booleans versus anything else. -/
inductive PyVal where
  | bool (b : Bool)
  | int (n : Int)
  | str (s : String)
  | pynone
deriving DecidableEq, Repr

/-- A class of a dataset document: a name and recording references. -/
structure DClass where
  name : String
  recordings : List String
deriving DecidableEq, Repr

/-- A dataset document as fetched from the dataset collaborator. -/
structure Dataset where
  name : String
  description : String
  classes : List DClass
  pub : Bool
deriving DecidableEq, Repr

/-- The external collaborators used by `evaluate_dataset`. -/
structure Env where
  dataset : String → Dataset
  count_lowlevel : String → Nat

/-- Modelled from the spec: `db.dataset.JSON_SCHEMA_COMPLETE` lives in
`db/dataset.py`, which is not part of the sources under verification.  Per the
spec, structural validation requires that "every class has a name and a
non-empty list of recording references; dataset itself has required
descriptive fields"; the record type supplies the required fields, so the
operative check is that every class's recording list is non-empty. -/
def schemaComplete (d : Dataset) : Bool :=
  d.classes.all (fun c => !c.recordings.isEmpty)

/-- Result of the referential-validation loop in `validate_dataset`:
the missing recording raised (if any), the final `rec_memo` keys, and the
number of calls made to `db.data.count_lowlevel`. -/
structure VRes where
  err : Option String
  memo : List String
  calls : Nat
deriving DecidableEq, Repr

/-- The inner `for recording_mbid in cls["recordings"]` loop.  The source
checks `if recording_mbid in rec_memo and rec_memo[recording_mbid]: pass` —
the branch body is `pass`, so the lookup has no effect and
`count_lowlevel` is called for every occurrence; we mirror that exactly. -/
def checkRecordings (cl : String → Nat) : List String → List String → Nat → VRes
  | [], memo, calls => ⟨none, memo, calls⟩
  | r :: rs, memo, calls =>
    let _memoHit := memo.contains r
    if cl r > 0 then
      checkRecordings cl rs (r :: memo) (calls + 1)
    else
      ⟨some r, memo, calls + 1⟩

/-- The outer `for cls in dataset["classes"]` loop. -/
def checkClasses (cl : String → Nat) : List DClass → List String → Nat → VRes
  | [], memo, calls => ⟨none, memo, calls⟩
  | c :: rest, memo, calls =>
    let v := checkRecordings cl c.recordings memo calls
    match v.err with
    | some e => ⟨some e, v.memo, v.calls⟩
    | none => checkClasses cl rest v.memo v.calls

/-- `validate_dataset(dataset)`: JSON-schema validation followed by the
low-level existence check for every referenced recording.  Returns the raised
error (if any) together with the number of `count_lowlevel` calls made. -/
def validate_dataset (cl : String → Nat) (d : Dataset) : Option EvalError × Nat :=
  if schemaComplete d then
    ((checkClasses cl d.classes [] 0).err.map EvalError.incompleteMissingRecording,
     (checkClasses cl d.classes [] 0).calls)
  else
    (some EvalError.incompleteSchema, 0)

/-- `_job_exists(connection, dataset_id)`:
`SELECT count(*) ... WHERE dataset_id = %s AND status IN (pending, running)`,
then `> 0`. -/
def jobExistsInner (jobs : List Job) (dataset_id : String) : Bool :=
  (jobs.filter (fun j =>
    j.dataset_id = dataset_id ∧ (j.status = Status.pending ∨ j.status = Status.running))).length > 0

/-- `job_exists(dataset_id)`. -/
def job_exists (s : QState) (dataset_id : String) : Bool :=
  jobExistsInner s.jobs dataset_id

/-- `json.dumps({"normalize": normalize, "filter_type": filter_type})`,
with Python's rendering of booleans, `None` and strings. -/
def optionsJson (normalize : Bool) (filter_type : Option String) : String :=
  "\x7b\"normalize\": " ++ (if normalize then "true" else "false") ++
    ", \"filter_type\": " ++
    (match filter_type with
     | none => "null"
     | some s => "\"" ++ s ++ "\"") ++ "\x7d"

/-- `_create_job(connection, dataset_id, normalize, filter_type)`: argument
checks, then `INSERT ... VALUES (uuid_generate_v4(), :dataset_id, :status,
:options) RETURNING id` with status `pending`.  On error the state is
returned untouched (the surrounding transaction commits nothing). -/
def createJob (s : QState) (dataset_id : String) (normalize : PyVal)
    (filter_type : Option String) : QState × Except EvalError Nat :=
  match normalize with
  | PyVal.bool b =>
    if (match filter_type with
        | none => true
        | some ft => ft = FILTER_ARTIST : Bool) then
      let j : Job :=
        { id := s.nextId
          dataset_id := dataset_id
          status := Status.pending
          status_msg := none
          result := none
          options := optionsJson b filter_type
          created := s.now
          updated := s.now }
      ({ s with jobs := s.jobs ++ [j], nextId := s.nextId + 1 }, Except.ok s.nextId)
    else
      (s, Except.error EvalError.valueErrorFilterType)
  | _ => (s, Except.error EvalError.valueErrorNormalize)

/-- `evaluate_dataset(dataset_id, normalize, filter_type)`: duplicate guard,
then validation of the fetched dataset document, then job insertion, inside
one transaction.  On any error nothing is committed: the original state is
returned with the error. -/
def evaluate_dataset (env : Env) (s : QState) (dataset_id : String)
    (normalize : PyVal) (filter_type : Option String) : QState × Except EvalError Nat :=
  if jobExistsInner s.jobs dataset_id then
    (s, Except.error EvalError.jobExists)
  else
    match (validate_dataset env.count_lowlevel (env.dataset dataset_id)).1 with
    | some e => (s, Except.error e)
    | none => createJob s dataset_id normalize filter_type

/-- One step of `ORDER BY created ASC LIMIT 1`: keep the row with the
smaller `created` (the earlier row on ties). -/
def pickOlder (acc : Option Job) (j : Job) : Option Job :=
  match acc with
  | none => some j
  | some b => if j.created < b.created then some j else some b

/-- `get_next_pending_job()`:
`SELECT ... WHERE status = pending ORDER BY created ASC LIMIT 1`. -/
def get_next_pending_job (s : QState) : Option Job :=
  (s.jobs.filter (fun j => j.status = Status.pending)).foldl pickOlder none

/-- `get_job(job_id)`: single-row fetch by id. -/
def get_job (s : QState) (job_id : Nat) : Option Job :=
  s.jobs.find? (fun j => j.id = job_id)

/-- `set_job_result(job_id, result)`:
`UPDATE ... SET (result, updated) = (%s, current_timestamp) WHERE id = %s`.
No rows match a nonexistent id, so the update silently does nothing then. -/
def set_job_result (s : QState) (job_id : Nat) (result : String) : QState :=
  { s with jobs := s.jobs.map (fun j =>
      if j.id = job_id then { j with result := some result, updated := s.now } else j) }

/-- `set_job_status(job_id, status, status_msg)`: reject status strings
outside the four constants with `IncorrectJobStatusException`, otherwise
`UPDATE ... SET (status, status_msg, updated) = (...) WHERE id = %s`. -/
def set_job_status (s : QState) (job_id : Nat) (status : String)
    (status_msg : Option String) : QState × Option EvalError :=
  match parseStatus status with
  | none => (s, some EvalError.incorrectJobStatus)
  | some st =>
    ({ s with jobs := s.jobs.map (fun j =>
        if j.id = job_id then
          { j with status := st, status_msg := status_msg, updated := s.now }
        else j) }, none)

/-- `get_dataset_snapshot(id)`: single-row fetch by id. -/
def get_dataset_snapshot (s : QState) (id : Nat) : Option Snapshot :=
  s.snaps.find? (fun p => p.id = id)

/-- `add_dataset_snapshot(data)`:
`INSERT INTO dataset_snapshot (data) VALUES (%s) RETURNING id`. -/
def add_dataset_snapshot (s : QState) (data : String) : QState × Nat :=
  ({ s with snaps := s.snaps ++ [⟨s.nextId, data⟩], nextId := s.nextId + 1 }, s.nextId)

/-! ### Spec-side measures and helper lemmas -/

/-- Number of jobs for `dataset_id` whose status is pending or running —
the quantity the spec's invariant bounds by 1.  The filter predicate is
syntactically the one used by `jobExistsInner`. -/
def activeCount (jobs : List Job) (dataset_id : String) : Nat :=
  (jobs.filter (fun j =>
    j.dataset_id = dataset_id ∧ (j.status = Status.pending ∨ j.status = Status.running))).length

/-- Is the job pending or running? -/
def isActive (j : Job) : Bool :=
  j.status = Status.pending ∨ j.status = Status.running

/-- Decidable form of the spec invariant "for a given dataset_id, the set of
jobs with status in \x7bpending, running\x7d has cardinality ≤ 1": it is
enough to check the datasets that actually have an active job. -/
def invB (s : QState) : Bool :=
  s.jobs.all (fun j => !(isActive j) || decide (activeCount s.jobs j.dataset_id ≤ 1))

/-- All recordings of all classes, in the iteration order of
`validate_dataset`. -/
def flatRecs (cs : List DClass) : List String :=
  (cs.map DClass.recordings).flatten

/-! ### Concrete states and environments used by witnesses -/

def c1s : QState :=
  ⟨[⟨0, "d", Status.done, none, none, "", 1, 1⟩,
    ⟨1, "d", Status.pending, none, none, "", 2, 2⟩], [], 2, 5⟩

def c2env : Env :=
  ⟨fun _ => ⟨"n", "desc", [⟨"cls1", ["r1", "r2"]⟩, ⟨"cls2", ["r2"]⟩], true⟩, fun _ => 1⟩

def c2s : QState := ⟨[], [], 0, 7⟩

def c2job : Job := ⟨0, "ds", Status.pending, none, none, optionsJson true none, 7, 7⟩

def c3s : QState := ⟨[⟨0, "d", Status.running, none, none, "", 1, 1⟩], [], 1, 3⟩

/-- A dataset collaborator whose document fails the complete-dataset schema
(a class with no recordings), paired with a data collaborator with no data. -/
def c3env : Env := ⟨fun _ => ⟨"n", "desc", [⟨"c", []⟩], true⟩, fun _ => 0⟩

/-- A dataset collaborator whose document references one recording without
low-level data, between two that have it. -/
def c4env : Env :=
  ⟨fun _ => ⟨"n", "desc", [⟨"cls1", ["ok1", "miss", "ok2"]⟩], true⟩,
   fun r => if r = "miss" then 0 else 1⟩

def c4s : QState := ⟨[], [], 0, 7⟩

def c5cl : String → Nat := fun _ => 1

def c5d : Dataset := ⟨"n", "desc", [⟨"c1", ["r"]⟩, ⟨"c2", ["r"]⟩], true⟩

def c6s : QState := ⟨[⟨0, "x", Status.pending, none, none, "", 1, 1⟩], [], 1, 9⟩

def c7s : QState := ⟨[⟨0, "x", Status.pending, none, none, "", 1, 1⟩], [], 1, 9⟩

def c8j : Job := ⟨2, "c", Status.pending, none, none, "", 3, 3⟩

def c8k : Job := ⟨1, "b", Status.pending, none, none, "", 5, 5⟩

def c8s : QState :=
  ⟨[⟨0, "a", Status.done, none, none, "", 1, 1⟩, c8k, c8j], [], 3, 9⟩

def c9s : QState := ⟨[], [⟨0, "old"⟩], 1, 4⟩

def c10env : Env := ⟨fun _ => ⟨"n", "desc", [⟨"cls", ["r"]⟩], true⟩, fun _ => 1⟩

def c10envbad : Env := ⟨fun _ => ⟨"n", "desc", [⟨"c", []⟩], true⟩, fun _ => 1⟩

def c10s : QState := ⟨[], [], 0, 2⟩

def c10s2 : QState := ⟨[⟨0, "ds", Status.pending, none, none, "", 1, 1⟩], [], 1, 2⟩

/-! ### Helper lemmas -/

theorem jobExistsInner_eq (jobs : List Job) (dataset_id : String) :
    jobExistsInner jobs dataset_id = decide (activeCount jobs dataset_id > 0) := rfl

theorem invB_iff (s : QState) : invB s = true ↔ ∀ did, activeCount s.jobs did ≤ 1 := by
  constructor
  · intro h did
    by_contra hc
    push_neg at hc
    have hpos : 0 < (s.jobs.filter (fun j =>
        j.dataset_id = did ∧ (j.status = Status.pending ∨ j.status = Status.running))).length := by
      have : 0 < activeCount s.jobs did := by omega
      exact this
    obtain ⟨j, hj⟩ := List.exists_mem_of_length_pos hpos
    rw [List.mem_filter] at hj
    have hprop := hj.2
    simp only [decide_eq_true_eq] at hprop
    have hall := (List.all_eq_true.mp h) j hj.1
    simp only [isActive, Bool.or_eq_true, Bool.not_eq_true', decide_eq_false_iff_not,
      decide_eq_true_eq] at hall
    rcases hall with hnact | hle
    · exact hnact hprop.2
    · rw [hprop.1] at hle
      omega
  · intro h
    apply List.all_eq_true.mpr
    intro j _
    simp only [Bool.or_eq_true, decide_eq_true_eq]
    exact Or.inr (h j.dataset_id)

theorem activeCount_append (l₁ l₂ : List Job) (did : String) :
    activeCount (l₁ ++ l₂) did = activeCount l₁ did + activeCount l₂ did := by
  simp [activeCount, List.filter_append]

/-- If a function only deactivates elements for a filter, filtering the mapped
list is no longer than filtering the original. -/
theorem length_filter_map_le {α : Type} (f : α → α) (p : α → Bool)
    (h : ∀ a, p (f a) = true → p a = true) (l : List α) :
    ((l.map f).filter p).length ≤ (l.filter p).length := by
  induction l with
  | nil => simp
  | cons a t ih =>
    simp only [List.map_cons, List.filter_cons]
    by_cases hpa : p (f a) = true
    · simp only [hpa, h a hpa, if_true, List.length_cons]
      omega
    · rw [Bool.not_eq_true] at hpa
      by_cases hq : p a = true
      · simp only [hpa, hq, Bool.false_eq_true, if_false, if_true, List.length_cons]
        omega
      · rw [Bool.not_eq_true] at hq
        simp only [hpa, hq, Bool.false_eq_true, if_false]
        exact ih

/-- A filter is unchanged by a map that does not change the predicate. -/
theorem length_filter_map_eq {α : Type} (f : α → α) (p : α → Bool)
    (h : ∀ a, p (f a) = p a) (l : List α) :
    ((l.map f).filter p).length = (l.filter p).length := by
  induction l with
  | nil => simp
  | cons a t ih =>
    simp only [List.map_cons, List.filter_cons, h a]
    by_cases hq : p a = true
    · rw [hq]
      simpa using ih
    · rw [Bool.not_eq_true] at hq
      rw [hq]
      simpa using ih

/-- A per-id update map is the identity when the id occurs nowhere. -/
theorem map_untouched (jobs : List Job) (jid : Nat) (g : Job → Job)
    (h : ∀ j ∈ jobs, j.id ≠ jid) :
    jobs.map (fun j => if j.id = jid then g j else j) = jobs := by
  induction jobs with
  | nil => rfl
  | cons a t ih =>
    have ha : a.id ≠ jid := h a (by simp)
    simp only [List.map_cons, if_neg ha]
    rw [ih (fun j hj => h j (by simp [hj]))]

/-! ### Validation characterization -/

theorem flatRecs_cons (c : DClass) (rest : List DClass) :
    flatRecs (c :: rest) = c.recordings ++ flatRecs rest := by
  simp [flatRecs]

theorem checkRecordings_err (cl : String → Nat) (recs : List String)
    (memo : List String) (calls : Nat) :
    (checkRecordings cl recs memo calls).err = recs.find? (fun r => decide (cl r = 0)) := by
  induction recs generalizing memo calls with
  | nil => rfl
  | cons r rs ih =>
    by_cases h : cl r > 0
    · have hz : (decide (cl r = 0)) = false := by simp; omega
      simp only [checkRecordings, if_pos h, List.find?, hz]
      exact ih _ _
    · have hz : (decide (cl r = 0)) = true := by simp; omega
      simp only [checkRecordings, if_neg h, List.find?, hz]

theorem checkRecordings_calls (cl : String → Nat) (recs : List String)
    (memo : List String) (calls : Nat) :
    (checkRecordings cl recs memo calls).calls =
      calls + (recs.takeWhile (fun r => decide (0 < cl r))).length +
        (if (recs.find? (fun r => decide (cl r = 0))).isSome then 1 else 0) := by
  induction recs generalizing memo calls with
  | nil => simp [checkRecordings]
  | cons r rs ih =>
    by_cases h : cl r > 0
    · have hz : cl r ≠ 0 := by omega
      simp only [checkRecordings, if_pos h, List.takeWhile_cons, List.find?]
      rw [ih]
      simp [h, hz]
      omega
    · have hz : cl r = 0 := by omega
      simp only [checkRecordings, if_neg h, List.takeWhile_cons, List.find?]
      simp [h, hz]

theorem checkClasses_err (cl : String → Nat) (cs : List DClass)
    (memo : List String) (calls : Nat) :
    (checkClasses cl cs memo calls).err = (flatRecs cs).find? (fun r => decide (cl r = 0)) := by
  induction cs generalizing memo calls with
  | nil => rfl
  | cons c rest ih =>
    rw [flatRecs_cons, List.find?_append]
    simp only [checkClasses]
    rcases hv : (checkRecordings cl c.recordings memo calls).err with _ | e
    · rw [checkRecordings_err] at hv
      rw [hv, Option.none_or]
      exact ih _ _
    · rw [checkRecordings_err] at hv
      rw [hv]
      rfl

theorem takeWhile_eq_self_of_all (p : String → Bool) (l : List String)
    (h : ∀ a ∈ l, p a = true) : l.takeWhile p = l := by
  calc l.takeWhile p = (l ++ []).takeWhile p := by rw [List.append_nil]
  _ = l ++ ([].takeWhile p) := List.takeWhile_append_of_pos h
  _ = l := by simp

theorem takeWhile_append_of_found (cl : String → Nat) (l₁ l₂ : List String)
    (h : (l₁.find? (fun r => decide (cl r = 0))).isSome = true) :
    (l₁ ++ l₂).takeWhile (fun r => decide (0 < cl r)) =
      l₁.takeWhile (fun r => decide (0 < cl r)) := by
  induction l₁ with
  | nil => simp [List.find?] at h
  | cons a t ih =>
    by_cases ha : 0 < cl a
    · have hz : cl a ≠ 0 := by omega
      have hfind : (a :: t).find? (fun r => decide (cl r = 0)) =
          t.find? (fun r => decide (cl r = 0)) := by
        simp [List.find?, hz]
      rw [hfind] at h
      simp only [List.cons_append, List.takeWhile_cons]
      simp only [ha, decide_eq_true_eq]
      rw [ih h]
    · have hz : cl a = 0 := by omega
      simp only [List.cons_append, List.takeWhile_cons]
      simp [ha]

theorem checkClasses_calls (cl : String → Nat) (cs : List DClass)
    (memo : List String) (calls : Nat) :
    (checkClasses cl cs memo calls).calls =
      calls + ((flatRecs cs).takeWhile (fun r => decide (0 < cl r))).length +
        (if ((flatRecs cs).find? (fun r => decide (cl r = 0))).isSome then 1 else 0) := by
  induction cs generalizing memo calls with
  | nil => simp [checkClasses, flatRecs]
  | cons c rest ih =>
    rw [flatRecs_cons]
    rcases hv : (checkRecordings cl c.recordings memo calls).err with _ | e
    · have hfind : c.recordings.find? (fun r => decide (cl r = 0)) = none := by
        rw [← checkRecordings_err cl c.recordings memo calls, hv]
      have hall : ∀ r ∈ c.recordings, (decide (0 < cl r)) = true := by
        intro r hr
        have hne := List.find?_eq_none.mp hfind r hr
        simp only [decide_eq_true_eq] at hne ⊢
        omega
      have hc := checkRecordings_calls cl c.recordings memo calls
      rw [hfind] at hc
      simp only [Option.isSome_none, Bool.false_eq_true, if_false, Nat.add_zero] at hc
      rw [takeWhile_eq_self_of_all _ _ hall] at hc
      simp only [checkClasses, hv]
      rw [ih]
      rw [List.find?_append, hfind, Option.none_or]
      rw [List.takeWhile_append_of_pos hall]
      rw [hc]
      simp only [List.length_append]
      omega
    · have hfind : c.recordings.find? (fun r => decide (cl r = 0)) = some e := by
        rw [← checkRecordings_err cl c.recordings memo calls, hv]
      have hc := checkRecordings_calls cl c.recordings memo calls
      rw [hfind] at hc
      simp only [Option.isSome_some, if_true] at hc
      simp only [checkClasses, hv]
      rw [List.find?_append, hfind]
      rw [takeWhile_append_of_found cl c.recordings (flatRecs rest) (by rw [hfind]; rfl)]
      simpa using hc

theorem validate_dataset_err_none (cl : String → Nat) (d : Dataset)
    (hs : schemaComplete d = true)
    (hall : ∀ c ∈ d.classes, ∀ r ∈ c.recordings, 0 < cl r) :
    (validate_dataset cl d).1 = none := by
  simp only [validate_dataset, if_pos hs]
  rw [checkClasses_err]
  have hfind : (flatRecs d.classes).find? (fun r => decide (cl r = 0)) = none := by
    apply List.find?_eq_none.mpr
    intro r hr
    simp only [flatRecs, List.mem_flatten] at hr
    obtain ⟨l, hl, hrl⟩ := hr
    obtain ⟨c, hc, rfl⟩ := List.mem_map.mp hl
    have := hall c hc r hrl
    simp only [decide_eq_true_eq]
    omega
  rw [hfind]
  rfl

theorem validate_dataset_schema_err (cl : String → Nat) (d : Dataset)
    (hs : schemaComplete d = false) :
    validate_dataset cl d = (some EvalError.incompleteSchema, 0) := by
  simp [validate_dataset, hs]

theorem validate_dataset_missing (cl : String → Nat) (d : Dataset) (r : String)
    (hs : schemaComplete d = true)
    (hr : (flatRecs d.classes).find? (fun x => decide (cl x = 0)) = some r) :
    validate_dataset cl d =
      (some (EvalError.incompleteMissingRecording r),
       ((flatRecs d.classes).takeWhile (fun x => decide (0 < cl x))).length + 1) := by
  simp only [validate_dataset, if_pos hs]
  rw [checkClasses_err, hr, checkClasses_calls, hr]
  simp

/-! ### Fold lemmas for get_next_pending_job -/

theorem foldl_pickOlder_some (l : List Job) (b : Job) :
    ∃ j, l.foldl pickOlder (some b) = some j := by
  induction l generalizing b with
  | nil => exact ⟨b, rfl⟩
  | cons a t ih =>
    have hpk : ∃ c, pickOlder (some b) a = some c := by
      by_cases h : a.created < b.created
      · exact ⟨a, by simp [pickOlder, h]⟩
      · exact ⟨b, by simp [pickOlder, h]⟩
    obtain ⟨c, hc⟩ := hpk
    rw [List.foldl_cons, hc]
    exact ih c

theorem foldl_pickOlder_none_iff (l : List Job) :
    l.foldl pickOlder none = none ↔ l = [] := by
  cases l with
  | nil => simp
  | cons a t =>
    rw [List.foldl_cons]
    have hpk : pickOlder none a = some a := rfl
    rw [hpk]
    obtain ⟨j, hj⟩ := foldl_pickOlder_some t a
    rw [hj]
    simp

theorem foldl_pickOlder_mem (l : List Job) :
    ∀ (acc : Option Job) (j : Job), l.foldl pickOlder acc = some j → acc = some j ∨ j ∈ l := by
  induction l with
  | nil => exact fun acc j h => Or.inl h
  | cons a t ih =>
    intro acc j h
    rw [List.foldl_cons] at h
    rcases ih _ j h with hacc | hmem
    · cases acc with
      | none =>
        have : pickOlder none a = some a := rfl
        rw [this] at hacc
        exact Or.inr ((Option.some_inj.mp hacc) ▸ List.mem_cons_self a t)
      | some b =>
        by_cases hab : a.created < b.created
        · have : pickOlder (some b) a = some a := by simp [pickOlder, hab]
          rw [this] at hacc
          exact Or.inr ((Option.some_inj.mp hacc) ▸ List.mem_cons_self a t)
        · have : pickOlder (some b) a = some b := by simp [pickOlder, hab]
          rw [this] at hacc
          exact Or.inl hacc
    · exact Or.inr (List.mem_cons_of_mem a hmem)

theorem foldl_pickOlder_min (l : List Job) :
    ∀ (acc : Option Job) (j : Job), l.foldl pickOlder acc = some j →
      (∀ b, acc = some b → j.created ≤ b.created) ∧ (∀ k ∈ l, j.created ≤ k.created) := by
  induction l with
  | nil =>
    intro acc j h
    refine ⟨?_, by simp⟩
    intro b hb
    rw [hb] at h
    rw [Option.some_inj.mp h]
  | cons a t ih =>
    intro acc j h
    rw [List.foldl_cons] at h
    obtain ⟨hacc, hall⟩ := ih _ j h
    have hja : j.created ≤ a.created ∧ ∀ b, acc = some b → j.created ≤ b.created := by
      cases acc with
      | none =>
        refine ⟨hacc a rfl, ?_⟩
        intro b hb
        exact absurd hb (by simp)
      | some b =>
        by_cases hab : a.created < b.created
        · have hpk : pickOlder (some b) a = some a := by simp [pickOlder, hab]
          have hja := hacc a hpk
          refine ⟨hja, ?_⟩
          intro b2 hb2
          cases Option.some_inj.mp hb2
          exact le_trans hja (le_of_lt hab)
        · have hpk : pickOlder (some b) a = some b := by simp [pickOlder, hab]
          have hjb := hacc b hpk
          refine ⟨le_trans hjb (not_lt.mp hab), ?_⟩
          intro b2 hb2
          cases Option.some_inj.mp hb2
          exact hjb
    refine ⟨hja.2, ?_⟩
    intro k hk
    rcases List.mem_cons.mp hk with rfl | hkt
    · exact hja.1
    · exact hall k hkt

/-! ### Claims -/

/-- C3: for every dataset_id with at least one pending or running job,
`evaluate_dataset` fails with `JobExistsException` and leaves the store
unchanged (the returned state is the input state), for every environment —
in particular also when the dataset document would fail validation, since
the duplicate guard runs first. -/
theorem C3_duplicate_guard_first (s : QState) (did : String)
    (h : job_exists s did = true) :
    ∀ (env : Env) (n : PyVal) (ft : Option String),
      evaluate_dataset env s did n ft = (s, Except.error EvalError.jobExists) := by
  intro env n ft
  have hg : jobExistsInner s.jobs did = true := h
  simp [evaluate_dataset, hg]

theorem C3_witness :
    job_exists c3s "d" = true ∧
    schemaComplete (c3env.dataset "d") = false ∧
    evaluate_dataset c3env c3s "d" (PyVal.bool true) none =
      (c3s, Except.error EvalError.jobExists) :=
  ⟨by decide, by decide,
   C3_duplicate_guard_first c3s "d" (by decide) c3env (PyVal.bool true) none⟩

/-- C5: the failing input for the memoization claim.  The dataset references
the single distinct recording "r" twice (once in each class) and the
recording is present, yet the validation pass makes 2 `count_lowlevel`
lookups, not 1: the source's memo-hit check has a bare `pass` body, so it
never skips the lookup. -/
theorem C5_memo_ineffective :
    validate_dataset c5cl c5d = (none, 2) ∧
    (flatRecs c5d.classes).dedup.length = 1 := by decide

/-- C6: `set_job_status` with a status outside the four valid strings fails
with `IncorrectJobStatusException` and returns the store untouched. -/
theorem C6_invalid_status (s : QState) (jid : Nat) (st : String) (msg : Option String)
    (h : st ∉ [STATUS_PENDING, STATUS_RUNNING, STATUS_DONE, STATUS_FAILED]) :
    set_job_status s jid st msg = (s, some EvalError.incorrectJobStatus) := by
  simp only [List.mem_cons, List.mem_singleton, not_or] at h
  obtain ⟨h1, h2, h3, h4⟩ := h
  have hp : parseStatus st = none := by
    simp [parseStatus, h1, h2, h3, h4]
  simp [set_job_status, hp]

theorem C6_witness :
    "bogus" ∉ [STATUS_PENDING, STATUS_RUNNING, STATUS_DONE, STATUS_FAILED] ∧
    set_job_status c6s 0 "bogus" none = (c6s, some EvalError.incorrectJobStatus) :=
  ⟨by decide, C6_invalid_status c6s 0 "bogus" none (by decide)⟩

/-- C7: when no stored job has the given id, `set_job_status` with a valid
status and `set_job_result` both succeed without error and return the store
unchanged. -/
theorem C7_missing_id_noop (s : QState) (jid : Nat)
    (h : ∀ j ∈ s.jobs, j.id ≠ jid) :
    (∀ (st : String) (msg : Option String), (parseStatus st).isSome = true →
       set_job_status s jid st msg = (s, none)) ∧
    (∀ r : String, set_job_result s jid r = s) := by
  constructor
  · intro st msg hst
    obtain ⟨v, hv⟩ := Option.isSome_iff_exists.mp hst
    simp only [set_job_status, hv]
    rw [map_untouched s.jobs jid
      (fun j => { j with status := v, status_msg := msg, updated := s.now }) h]
  · intro r
    simp only [set_job_result]
    rw [map_untouched s.jobs jid
      (fun j => { j with result := some r, updated := s.now }) h]

theorem C7_witness :
    set_job_status c7s 5 STATUS_DONE none = (c7s, none) ∧
    set_job_result c7s 5 "res" = c7s :=
  ⟨(C7_missing_id_noop c7s 5 (by decide)).1 STATUS_DONE none (by decide),
   (C7_missing_id_noop c7s 5 (by decide)).2 "res"⟩

/-- C9: adding a snapshot and fetching it back under the returned id yields a
record with that id and the stored data; fetching an id under which nothing
was stored yields `none`. -/
theorem C9_snapshot_roundtrip (s : QState) (d : String)
    (hfresh : ∀ p ∈ s.snaps, p.id < s.nextId) :
    get_dataset_snapshot (add_dataset_snapshot s d).1 (add_dataset_snapshot s d).2 =
      some ⟨(add_dataset_snapshot s d).2, d⟩ ∧
    (∀ i, (∀ p ∈ s.snaps, p.id ≠ i) → get_dataset_snapshot s i = none) := by
  constructor
  · simp only [get_dataset_snapshot, add_dataset_snapshot]
    rw [List.find?_append]
    have h1 : s.snaps.find? (fun p => decide (p.id = s.nextId)) = none := by
      apply List.find?_eq_none.mpr
      intro p hp
      have := hfresh p hp
      simp only [decide_eq_true_eq]
      omega
    rw [h1, Option.none_or]
    simp [List.find?]
  · intro i hi
    apply List.find?_eq_none.mpr
    intro p hp
    simpa using hi p hp

theorem C9_witness :
    get_dataset_snapshot (add_dataset_snapshot c9s "blob").1
      (add_dataset_snapshot c9s "blob").2 = some ⟨1, "blob"⟩ ∧
    get_dataset_snapshot c9s 77 = none := by
  have h := C9_snapshot_roundtrip c9s "blob" (by decide)
  exact ⟨h.1, h.2 77 (by decide)⟩

theorem activeCount_eq_zero (jobs : List Job) (did : String)
    (h : jobExistsInner jobs did = false) : activeCount jobs did = 0 := by
  rw [jobExistsInner_eq] at h
  simp only [gt_iff_lt, decide_eq_false_iff_not, not_lt, Nat.le_zero] at h
  exact h

theorem activeCount_singleton_le (j : Job) (did : String) : activeCount [j] did ≤ 1 := by
  simp only [activeCount, List.filter_cons, List.filter_nil]
  split <;> simp

theorem activeCount_singleton_ne (j : Job) (did : String) (h : ¬(j.dataset_id = did)) :
    activeCount [j] did = 0 := by
  simp [activeCount, List.filter_cons, h]

/-- On a valid option pair, `createJob` appends exactly one pending job with
the fresh id and the serialized options, and returns that id. -/
theorem createJob_state (s : QState) (did : String) (b : Bool) (ft : Option String)
    (hok : ft = none ∨ ft = some FILTER_ARTIST) :
    (createJob s did (PyVal.bool b) ft).1.jobs = s.jobs ++
      [⟨s.nextId, did, Status.pending, none, none, optionsJson b ft, s.now, s.now⟩] ∧
    (createJob s did (PyVal.bool b) ft).1.snaps = s.snaps ∧
    (createJob s did (PyVal.bool b) ft).1.nextId = s.nextId + 1 ∧
    (createJob s did (PyVal.bool b) ft).1.now = s.now ∧
    (createJob s did (PyVal.bool b) ft).2 = Except.ok s.nextId := by
  rcases hok with rfl | rfl
  · exact ⟨rfl, rfl, rfl, rfl, rfl⟩
  · refine ⟨?_, ?_, ?_, ?_, ?_⟩ <;> simp [createJob, FILTER_ARTIST]

theorem activeCount_insert_le (jobs : List Job) (did did2 : String) (j : Job)
    (hj : j.dataset_id = did) (hz : activeCount jobs did = 0)
    (hInv : activeCount jobs did2 ≤ 1) :
    activeCount (jobs ++ [j]) did2 ≤ 1 := by
  rw [activeCount_append]
  by_cases hdd : did = did2
  · subst hdd
    rw [hz, Nat.zero_add]
    exact activeCount_singleton_le _ _
  · rw [activeCount_singleton_ne _ _ (by rw [hj]; exact hdd)]
    omega

/-- C1 (amended): starting from any state satisfying the at-most-one-active
invariant, `evaluate_dataset` (enqueue, via its duplicate guard) and
`set_job_result` preserve it for every dataset, and `set_job_status`
preserves it when the status being set is done or failed.  Setting pending
or running can violate it; see the counterexample. -/
theorem C1_invariant_preservation (s : QState)
    (hInv : ∀ did, activeCount s.jobs did ≤ 1) :
    (∀ (env : Env) (did : String) (n : PyVal) (ft : Option String) (did2 : String),
       activeCount (evaluate_dataset env s did n ft).1.jobs did2 ≤ 1) ∧
    (∀ (jid : Nat) (r : String) (did2 : String),
       activeCount (set_job_result s jid r).jobs did2 ≤ 1) ∧
    (∀ (jid : Nat) (st : String) (msg : Option String) (did2 : String),
       st = STATUS_DONE ∨ st = STATUS_FAILED →
       activeCount (set_job_status s jid st msg).1.jobs did2 ≤ 1) := by
  refine ⟨?_, ?_, ?_⟩
  · intro env did n ft did2
    by_cases hg : jobExistsInner s.jobs did = true
    · simp only [evaluate_dataset, hg, if_true]
      exact hInv did2
    · rw [Bool.not_eq_true] at hg
      have hz := activeCount_eq_zero s.jobs did hg
      rcases hval : (validate_dataset env.count_lowlevel (env.dataset did)).1 with _ | e
      · simp only [evaluate_dataset, hg, Bool.false_eq_true, if_false, hval]
        cases n with
        | bool b =>
          rcases ft with _ | g
          · rw [(createJob_state s did b none (Or.inl rfl)).1]
            exact activeCount_insert_le s.jobs did did2 _ rfl hz (hInv did2)
          · by_cases hart : g = FILTER_ARTIST
            · subst hart
              rw [(createJob_state s did b (some FILTER_ARTIST) (Or.inr rfl)).1]
              exact activeCount_insert_le s.jobs did did2 _ rfl hz (hInv did2)
            · have hcj : createJob s did (PyVal.bool b) (some g) =
                  (s, Except.error EvalError.valueErrorFilterType) := by
                simp [createJob, hart]
              rw [hcj]
              exact hInv did2
        | int m => exact hInv did2
        | str t => exact hInv did2
        | pynone => exact hInv did2
      · simp only [evaluate_dataset, hg, Bool.false_eq_true, if_false, hval]
        exact hInv did2
  · intro jid r did2
    simp only [set_job_result, activeCount]
    rw [length_filter_map_eq]
    · exact hInv did2
    · intro a
      by_cases h : a.id = jid <;> simp [h]
  · intro jid st msg did2 hst
    have hpv : ∃ v, parseStatus st = some v ∧ (v = Status.done ∨ v = Status.failed) := by
      rcases hst with rfl | rfl
      · exact ⟨Status.done, by decide, Or.inl rfl⟩
      · exact ⟨Status.failed, by decide, Or.inr rfl⟩
    obtain ⟨v, hv, hvdf⟩ := hpv
    simp only [set_job_status, hv, activeCount]
    refine le_trans (length_filter_map_le _ _ ?_ s.jobs) (hInv did2)
    intro a ha
    by_cases h : a.id = jid
    · exfalso
      rcases hvdf with rfl | rfl <;> simp [h] at ha
    · simpa [h] using ha

/-- C1 counterexample: a state with one done job and one pending job for the
same dataset satisfies the invariant, yet `set_job_status` with the valid
status "running" on the done job succeeds and leaves two active jobs for
that dataset. -/
theorem C1_counterexample :
    invB c1s = true ∧
    (set_job_status c1s 0 STATUS_RUNNING none).2 = none ∧
    activeCount (set_job_status c1s 0 STATUS_RUNNING none).1.jobs "d" = 2 := by
  decide

theorem C1_witness :
    activeCount (set_job_status c1s 1 STATUS_DONE none).1.jobs "d" ≤ 1 :=
  (C1_invariant_preservation c1s ((invB_iff c1s).mp (by decide))).2.2
    1 STATUS_DONE none "d" (Or.inl rfl)

/-- C2: on a dataset whose document passes the complete-dataset schema
check, all of whose referenced recordings have low-level data, and with no
active job, `evaluate_dataset` with a boolean normalize and a valid
filter_type succeeds: it appends exactly one new job carrying a fresh unique
id, status pending, and options `json.dumps(\x7bnormalize, filter_type\x7d)`;
it returns that id, and `job_exists` then reports true. -/
theorem C2_enqueue_success (env : Env) (s : QState) (did : String) (b : Bool)
    (ft : Option String)
    (hguard : job_exists s did = false)
    (hschema : schemaComplete (env.dataset did) = true)
    (hdata : ∀ c ∈ (env.dataset did).classes, ∀ r ∈ c.recordings, 0 < env.count_lowlevel r)
    (hfresh : ∀ j ∈ s.jobs, j.id < s.nextId)
    (hft : ft = none ∨ ft = some FILTER_ARTIST) :
    evaluate_dataset env s did (PyVal.bool b) ft =
      ({ s with
          jobs := s.jobs ++
            [⟨s.nextId, did, Status.pending, none, none, optionsJson b ft, s.now, s.now⟩],
          nextId := s.nextId + 1 },
        Except.ok s.nextId) ∧
    (∀ j ∈ s.jobs, j.id ≠ s.nextId) ∧
    job_exists (evaluate_dataset env s did (PyVal.bool b) ft).1 did = true := by
  have hg : jobExistsInner s.jobs did = false := hguard
  have hv := validate_dataset_err_none env.count_lowlevel (env.dataset did) hschema hdata
  have hmain : evaluate_dataset env s did (PyVal.bool b) ft =
      ({ s with
          jobs := s.jobs ++
            [⟨s.nextId, did, Status.pending, none, none, optionsJson b ft, s.now, s.now⟩],
          nextId := s.nextId + 1 },
        Except.ok s.nextId) := by
    rcases hft with rfl | rfl
    · simp only [evaluate_dataset, hg, Bool.false_eq_true, if_false, hv]
      rfl
    · simp only [evaluate_dataset, hg, Bool.false_eq_true, if_false, hv]
      simp [createJob, FILTER_ARTIST]
  refine ⟨hmain, ?_, ?_⟩
  · intro j hj
    have := hfresh j hj
    omega
  · rw [hmain]
    show jobExistsInner (s.jobs ++
      [⟨s.nextId, did, Status.pending, none, none, optionsJson b ft, s.now, s.now⟩]) did = true
    rw [jobExistsInner_eq, activeCount_append]
    have hone : activeCount
        [(⟨s.nextId, did, Status.pending, none, none, optionsJson b ft, s.now, s.now⟩ : Job)]
        did = 1 := by
      simp [activeCount, List.filter_cons]
    rw [hone]
    simp

theorem C2_witness :
    evaluate_dataset c2env c2s "ds" (PyVal.bool true) none =
      ({ jobs := [c2job], snaps := [], nextId := 1, now := 7 }, Except.ok 0) ∧
    job_exists { jobs := [c2job], snaps := [], nextId := 1, now := 7 } "ds" = true := by
  have h := C2_enqueue_success c2env c2s "ds" true none (by decide) (by decide)
    (by decide) (by decide) (Or.inl rfl)
  refine ⟨h.1, ?_⟩
  have h3 := h.2.2
  rw [h.1] at h3
  exact h3

/-- C4: with no active job for the dataset, `evaluate_dataset` fails with
`IncompleteDatasetException` exactly when the document fails the schema or
some referenced recording lacks low-level data.  A schema failure raises the
schema-detail error; otherwise the error names the first missing recording
in class/recording iteration order, the validation stops right there (one
lookup per preceding recording plus one for the missing one), and in every
failing case the returned state is the unchanged input, so no job is
created. -/
theorem C4_incomplete_dataset (env : Env) (s : QState) (did : String)
    (hguard : job_exists s did = false) :
    (schemaComplete (env.dataset did) = false →
       ∀ (n : PyVal) (ft : Option String),
         evaluate_dataset env s did n ft = (s, Except.error EvalError.incompleteSchema)) ∧
    (∀ r, schemaComplete (env.dataset did) = true →
       (flatRecs (env.dataset did).classes).find?
           (fun x => decide (env.count_lowlevel x = 0)) = some r →
       (∀ (n : PyVal) (ft : Option String),
          evaluate_dataset env s did n ft =
            (s, Except.error (EvalError.incompleteMissingRecording r))) ∧
       (validate_dataset env.count_lowlevel (env.dataset did)).2 =
         ((flatRecs (env.dataset did).classes).takeWhile
            (fun x => decide (0 < env.count_lowlevel x))).length + 1) ∧
    (schemaComplete (env.dataset did) = true →
       (∀ c ∈ (env.dataset did).classes, ∀ r ∈ c.recordings, 0 < env.count_lowlevel r) →
       ∀ (n : PyVal) (ft : Option String) (e : EvalError),
         evaluate_dataset env s did n ft = (s, Except.error e) →
         e.isIncomplete = false) := by
  have hg : jobExistsInner s.jobs did = false := hguard
  refine ⟨?_, ?_, ?_⟩
  · intro hs n ft
    have hv := validate_dataset_schema_err env.count_lowlevel (env.dataset did) hs
    have hv1 : (validate_dataset env.count_lowlevel (env.dataset did)).1 =
        some EvalError.incompleteSchema := by rw [hv]
    simp [evaluate_dataset, hg, hv1]
  · intro r hs hr
    have hv := validate_dataset_missing env.count_lowlevel (env.dataset did) r hs hr
    have hv1 : (validate_dataset env.count_lowlevel (env.dataset did)).1 =
        some (EvalError.incompleteMissingRecording r) := by rw [hv]
    constructor
    · intro n ft
      simp [evaluate_dataset, hg, hv1]
    · rw [hv]
  · intro hs hall n ft e he
    have hv1 := validate_dataset_err_none env.count_lowlevel (env.dataset did) hs hall
    simp only [evaluate_dataset, hg, Bool.false_eq_true, if_false, hv1] at he
    cases n with
    | bool b =>
      rcases ft with _ | g
      · have := (createJob_state s did b none (Or.inl rfl)).2.2.2.2
        rw [he] at this
        exact absurd this (by simp)
      · by_cases hart : g = FILTER_ARTIST
        · subst hart
          have := (createJob_state s did b (some FILTER_ARTIST) (Or.inr rfl)).2.2.2.2
          rw [he] at this
          exact absurd this (by simp)
        · have hcj : createJob s did (PyVal.bool b) (some g) =
              (s, Except.error EvalError.valueErrorFilterType) := by
            simp [createJob, hart]
          rw [hcj] at he
          have : e = EvalError.valueErrorFilterType := by
            have := congrArg Prod.snd he
            simpa using this.symm
          rw [this]
          rfl
    | int m =>
      have : e = EvalError.valueErrorNormalize := by
        have := congrArg Prod.snd he
        simpa [createJob] using this.symm
      rw [this]
      rfl
    | str t =>
      have : e = EvalError.valueErrorNormalize := by
        have := congrArg Prod.snd he
        simpa [createJob] using this.symm
      rw [this]
      rfl
    | pynone =>
      have : e = EvalError.valueErrorNormalize := by
        have := congrArg Prod.snd he
        simpa [createJob] using this.symm
      rw [this]
      rfl

theorem C4_witness :
    evaluate_dataset c4env c4s "ds" (PyVal.bool true) none =
      (c4s, Except.error (EvalError.incompleteMissingRecording "miss")) ∧
    (validate_dataset c4env.count_lowlevel (c4env.dataset "ds")).2 = 2 := by
  have h := (C4_incomplete_dataset c4env c4s "ds" (by decide)).2.1 "miss"
    (by decide) (by decide)
  refine ⟨h.1 (PyVal.bool true) none, ?_⟩
  rw [h.2]
  decide

/-- C8: `get_next_pending_job` returns `none` exactly when no stored job is
pending, and otherwise returns a stored pending job whose `created` is
minimal among all pending jobs.  The operation is a pure read: it takes the
state and returns only an optional job, so the store cannot be modified (in
particular the returned job is not marked as claimed). -/
theorem C8_next_pending (s : QState) :
    (get_next_pending_job s = none ↔ ∀ j ∈ s.jobs, j.status ≠ Status.pending) ∧
    (∀ j, get_next_pending_job s = some j →
       j ∈ s.jobs ∧ j.status = Status.pending ∧
       ∀ k ∈ s.jobs, k.status = Status.pending → j.created ≤ k.created) := by
  constructor
  · unfold get_next_pending_job
    rw [foldl_pickOlder_none_iff, List.filter_eq_nil_iff]
    constructor
    · intro h j hj hp
      exact (h j hj) (by simp [hp])
    · intro h j hj hp
      simp only [decide_eq_true_eq] at hp
      exact (h j hj) hp
  · intro j hj
    unfold get_next_pending_job at hj
    rcases foldl_pickOlder_mem _ none j hj with hacc | hmem
    · exact absurd hacc (by simp)
    · rw [List.mem_filter] at hmem
      obtain ⟨hjj, hjp⟩ := hmem
      have hmin := (foldl_pickOlder_min _ none j hj).2
      refine ⟨hjj, by simpa using hjp, ?_⟩
      intro k hk hkp
      exact hmin k (List.mem_filter.mpr ⟨hk, by simp [hkp]⟩)

theorem C8_witness :
    get_next_pending_job c8s = some c8j ∧
    c8j ∈ c8s.jobs ∧ c8j.status = Status.pending ∧ c8j.created ≤ c8k.created := by
  have h := (C8_next_pending c8s).2 c8j (by decide)
  exact ⟨by decide, h.1, h.2.1, h.2.2 c8k (by decide) (by decide)⟩

/-- C10: the option-argument checks of enqueue live in the final insert step:
with an active job the call fails with `JobExistsException` whatever the
options are; with no active job and an invalid document it fails with the
`IncompleteDatasetException` from validation, whatever the options are; only
with no active job and a valid document do the option checks run, failing
with the normalize error for a non-boolean normalize and with the
filter_type error for an unrecognized filter, and in both cases the
returned state is the unchanged input, so no job row is created. -/
theorem C10_option_checks_last (env : Env) (s : QState) (did : String) :
    (job_exists s did = true →
       ∀ (n : PyVal) (ft : Option String),
         evaluate_dataset env s did n ft = (s, Except.error EvalError.jobExists)) ∧
    (job_exists s did = false →
       ∀ e, (validate_dataset env.count_lowlevel (env.dataset did)).1 = some e →
         e.isIncomplete = true ∧
         ∀ (n : PyVal) (ft : Option String),
           evaluate_dataset env s did n ft = (s, Except.error e)) ∧
    (job_exists s did = false →
       (validate_dataset env.count_lowlevel (env.dataset did)).1 = none →
       (∀ (n : PyVal) (ft : Option String), (∀ b, n ≠ PyVal.bool b) →
          evaluate_dataset env s did n ft =
            (s, Except.error EvalError.valueErrorNormalize)) ∧
       (∀ (b : Bool) (g : String), g ≠ FILTER_ARTIST →
          evaluate_dataset env s did (PyVal.bool b) (some g) =
            (s, Except.error EvalError.valueErrorFilterType))) := by
  refine ⟨?_, ?_, ?_⟩
  · intro h n ft
    have hg : jobExistsInner s.jobs did = true := h
    simp [evaluate_dataset, hg]
  · intro h e he
    have hg : jobExistsInner s.jobs did = false := h
    constructor
    · have hsplit : validate_dataset env.count_lowlevel (env.dataset did) =
          (some e, (validate_dataset env.count_lowlevel (env.dataset did)).2) := by
        rw [← he]
      by_cases hs : schemaComplete (env.dataset did) = true
      · have := congrArg Prod.fst hsplit
        rw [he] at this
        simp only [validate_dataset, if_pos hs] at he
        rcases hfe : (checkClasses env.count_lowlevel (env.dataset did).classes [] 0).err
            with _ | r
        · rw [hfe] at he
          simp at he
        · rw [hfe] at he
          have hre : EvalError.incompleteMissingRecording r = e := by
            simpa using he
          rw [← hre]
          rfl
      · rw [Bool.not_eq_true] at hs
        have hv := validate_dataset_schema_err env.count_lowlevel (env.dataset did) hs
        have hv1 : (validate_dataset env.count_lowlevel (env.dataset did)).1 =
            some EvalError.incompleteSchema := by rw [hv]
        rw [hv1] at he
        rw [← Option.some_inj.mp he]
        rfl
    · intro n ft
      simp [evaluate_dataset, hg, he]
  · intro h hv
    have hg : jobExistsInner s.jobs did = false := h
    constructor
    · intro n ft hnb
      simp only [evaluate_dataset, hg, Bool.false_eq_true, if_false, hv]
      cases n with
      | bool b => exact absurd rfl (hnb b)
      | int m => rfl
      | str t => rfl
      | pynone => rfl
    · intro b g hart
      simp only [evaluate_dataset, hg, Bool.false_eq_true, if_false, hv]
      simp [createJob, hart]

theorem C10_witness :
    evaluate_dataset c10env c10s2 "ds" (PyVal.int 1) none =
      (c10s2, Except.error EvalError.jobExists) ∧
    evaluate_dataset c10envbad c10s "ds" (PyVal.int 1) none =
      (c10s, Except.error EvalError.incompleteSchema) ∧
    evaluate_dataset c10env c10s "ds" (PyVal.int 1) none =
      (c10s, Except.error EvalError.valueErrorNormalize) ∧
    evaluate_dataset c10env c10s "ds" (PyVal.bool true) (some "bogus") =
      (c10s, Except.error EvalError.valueErrorFilterType) := by
  have h1 := (C10_option_checks_last c10env c10s2 "ds").1 (by decide) (PyVal.int 1) none
  have h2 := ((C10_option_checks_last c10envbad c10s "ds").2.1 (by decide)
    EvalError.incompleteSchema (by decide)).2 (PyVal.int 1) none
  have h34 := (C10_option_checks_last c10env c10s "ds").2.2 (by decide) (by decide)
  exact ⟨h1, h2, h34.1 (PyVal.int 1) none (by decide), h34.2 true "bogus" (by decide)⟩

end DatasetEval
